import Mathlib

/-!
Verification of `pgraph.py`.

A shallow embedding of the pipeline-composition framework in `src/pgraph.py`:
`FlowPool` (named artifact store with per-invocation access tracking),
`Config` (scalar settings store with access tracking and serialization),
`Pipe` (the metaclass-installed `wrap_run` execution wrapper capturing
provenance) and `Pipeline` (linear composition and the `run` loop).

Python values are modelled by `PyVal`; Python `dict`s by insertion-ordered
association lists (`pyFind` / `pySet`); each distinct `raise` site in the
source becomes a distinct `PErr` constructor named after its message.
Exceptions that propagate while shared objects keep their state are modelled
by returning the error alongside the state at the raise point.
-/

set_option autoImplicit false

namespace PGraph

/-- A Python value, as far as `pgraph.py` distinguishes them: the scalar types
accepted by `Config._check_type` (`int`, `float`, `str`), plus containers and
`None`.  Floating-point arithmetic is never performed by the code, so a float
is carried as an opaque payload identifying the value. -/
inductive PyVal where
  | intV (n : Int)
  | floatV (payload : Nat)
  | strV (s : String)
  | listV (elems : List PyVal)
  | dictV (entries : List (String × PyVal))
  | noneV
deriving Repr

/-- First binding of a key in an association list, i.e. Python `d[k]` /
`k in d` on an insertion-ordered `dict` (keys in reachable states are
unique, so "first" is the only binding). -/
def pyFind {α : Type} : List (String × α) → String → Option α
  | [], _ => none
  | (k', v') :: rest, k => if k' = k then some v' else pyFind rest k

/-- Python `d[k] = v` on an insertion-ordered `dict`: replace the binding in
place if the key is present, otherwise append the new binding at the end. -/
def pySet {α : Type} : List (String × α) → String → α → List (String × α)
  | [], k, v => [(k, v)]
  | (k', v') :: rest, k, v =>
    if k' = k then (k, v) :: rest else (k', v') :: pySet rest k v

/-- Python `k in d`. -/
def pyMem {α : Type} (d : List (String × α)) (k : String) : Bool :=
  (pyFind d k).isSome

/-- Each distinct `raise`/`assert` site of `pgraph.py`, named after its
message.  The source raises bare `Exception`s with distinguishing messages;
the spec's error taxonomy names them, and we keep one constructor per site. -/
inductive PErr where
  /-- "No such flow exists." (`FlowPool.read_flow`). -/
  | notFoundFlow (name : String)
  /-- "Flow can only be read once in one pipe." -/
  | alreadyRead (name : String)
  /-- "Reading the same flow after writing it is not allowed". -/
  | readAfterWrite (name : String)
  /-- "Flow already exists when overwrite=False." -/
  | alreadyExists (name : String)
  /-- "Flow can only be written once in one pipe". -/
  | alreadyWritten (name : String)
  /-- "No such config exists." (`Config.get_config`). -/
  | notFoundConfig (name : String)
  /-- An `assert` failure (`AssertionError`), carrying the message. -/
  | assertionError (msg : String)
  /-- `AttributeError`: an operation invoked on an object lacking it
  (here: `json.load` calling `.read()` on a plain `str`). -/
  | attributeError
deriving Repr, DecidableEq

/-! ## FlowPool (`pgraph.py` lines 84–123) -/

/-- `FlowPool.__init__`: the persistent `flow_map` plus the two transient
per-invocation caches, `_read_cache` and `_write_cache`, kept in access
order (the Python code appends to lists). -/
structure FlowPool where
  flow_map : List (String × PyVal)
  read_cache : List String
  write_cache : List String
deriving Repr

/-- A fresh `FlowPool()`. -/
def FlowPool.init : FlowPool := ⟨[], [], []⟩

/-- `FlowPool.pop_cache`: return the read cache and write cache (the Python
dict keyed by `READ_CACHE_KEY` / `WRITE_CACHE_KEY` is modelled as a pair)
and reset both to empty. -/
def FlowPool.pop_cache (fp : FlowPool) : (List String × List String) × FlowPool :=
  ((fp.read_cache, fp.write_cache),
   { fp with read_cache := [], write_cache := [] })

/-- `FlowPool.read_flow`: the three checks in source order, then record the
read and return the stored value.  The second component is the state of the
pool when the call returns or raises. -/
def FlowPool.read_flow (fp : FlowPool) (flow_name : String) :
    Except PErr PyVal × FlowPool :=
  match pyFind fp.flow_map flow_name with
  | none => (.error (.notFoundFlow flow_name), fp)
  | some v =>
    if fp.read_cache.contains flow_name then
      (.error (.alreadyRead flow_name), fp)
    else if fp.write_cache.contains flow_name then
      (.error (.readAfterWrite flow_name), fp)
    else
      (.ok v, { fp with read_cache := fp.read_cache ++ [flow_name] })

/-- `FlowPool.write_flow`: the two checks in source order, then record the
write and store the value.  Returns the error (if any) and the state of the
pool when the call returns or raises. -/
def FlowPool.write_flow (fp : FlowPool) (flow_name : String) (flow_content : PyVal)
    (overwrite : Bool) : Option PErr × FlowPool :=
  if pyMem fp.flow_map flow_name && !overwrite then
    (some (.alreadyExists flow_name), fp)
  else if fp.write_cache.contains flow_name then
    (some (.alreadyWritten flow_name), fp)
  else
    (none, { fp with
      write_cache := fp.write_cache ++ [flow_name],
      flow_map := pySet fp.flow_map flow_name flow_content })

/-! ## Config (`pgraph.py` lines 126–158) -/

/-- `type(v) in (int, float, str)` — the per-value test of
`Config._check_type`. -/
def isScalar : PyVal → Bool
  | .intV _ => true
  | .floatV _ => true
  | .strV _ => true
  | _ => false

/-- `Config._check_type` on a map: every value is an `int`, `float` or
`str`.  (The `isinstance(self.config_map, dict)` assertion is discharged by
typing.) -/
def checkType (m : List (String × PyVal)) : Bool :=
  m.all fun kv => isScalar kv.2

/-- `Config`: the settings map plus the transient access cache `_cache`
(a name → value dict in access order). -/
structure Config where
  config_map : List (String × PyVal)
  cache : List (String × PyVal)
deriving Repr

/-- `Config.__init__(start_from)`: default the map to empty, run
`_check_type` (an `assert`, so failure raises), then start with an empty
cache. -/
def Config.make (start_from : Option (List (String × PyVal))) : Except PErr Config :=
  let m := start_from.getD []
  if checkType m then .ok ⟨m, []⟩
  else .error (.assertionError "config value type")

/-- `Config.pop_cache`: return the access cache (under `CACHE_KEY`) and
reset it. -/
def Config.pop_cache (c : Config) : List (String × PyVal) × Config :=
  (c.cache, { c with cache := [] })

/-- `Config.get_config`: not-found check, then record name → value in the
cache and return the value.  Second component is the state at return or
raise. -/
def Config.get_config (c : Config) (config_name : String) :
    Except PErr PyVal × Config :=
  match pyFind c.config_map config_name with
  | none => (.error (.notFoundConfig config_name), c)
  | some v => (.ok v, { c with cache := pySet c.cache config_name v })

/-! ## Config serialization (`pgraph.py` lines 152–158)

The filesystem is a map from path to the JSON value stored in the file at
that path.  `serialize_to` calls `json.dump(self.config_map, open(path, 'wb'))`
— it passes an *open file object*.  `serialize_from` calls
`json.load(os.path.join(source_dir, FNAME), 'rb')` — it passes the *path
string itself* (and a mode flag) where `json.load` expects a file object.
`json.load` begins by calling `.read()` on its first argument; a `str` has
no `read` attribute, so that call raises `AttributeError` before any file
is consulted. -/

/-- The filesystem: path → JSON document content. -/
abbrev FS : Type := List (String × PyVal)

/-- What `serialize_to`/`serialize_from` hand to `json.dump`/`json.load` as
the file argument: either an open file object for a path, or a plain string
(which is not file-like). -/
inductive PyFileArg where
  | opened (path : String)
  | rawStr (s : String)

/-- `os.path.join(dir, fname)`. -/
def joinPath (dir fname : String) : String := dir ++ "/" ++ fname

/-- `json.dump(v, f)`: write the serialized value into the opened file.
(Called by the source only with an open file object.) -/
def jsonDump (v : PyVal) (f : PyFileArg) (fs : FS) : FS :=
  match f with
  | .opened p => pySet fs p v
  | .rawStr _ => fs

/-- `json.load(f, ...)`: requires a file-like first argument; calling it on
a raw `str` raises `AttributeError` (no `read` method) before touching the
filesystem.  On an open file, returns the parsed document. -/
def jsonLoad (f : PyFileArg) (fs : FS) : Except PErr PyVal :=
  match f with
  | .rawStr _ => .error .attributeError
  | .opened p =>
    match pyFind fs p with
    | some v => .ok v
    | none => .error (.assertionError "file not found")

/-- `Config.SERIALIZATION_FNAME`. -/
def Config.serializationFname : String := "config.json"

/-- `Config.serialize_to(target_dir)`: dump `config_map` as a JSON object
into `config.json` inside the directory, via an opened file. -/
def Config.serialize_to (c : Config) (target_dir : String) (fs : FS) : FS :=
  jsonDump (.dictV c.config_map) (.opened (joinPath target_dir Config.serializationFname)) fs

/-- Coerce the value returned by `json.load` into the `config_map` field.
(A loaded `config.json` is a JSON object; the source assigns the result
without inspecting it, and never reaches this point anyway.) -/
def toDictVal : PyVal → List (String × PyVal)
  | .dictV d => d
  | _ => []

/-- `Config.serialize_from(source_dir)`:
`self.config_map = json.load(os.path.join(source_dir, FNAME), 'rb')`.
The first argument to `json.load` is the raw path string, not an open file.
Note also that, unlike `__init__`, no `_check_type` is invoked on the
loaded value.  On a raised error `self.config_map` is left unassigned. -/
def Config.serialize_from (c : Config) (source_dir : String) (fs : FS) :
    Option PErr × Config :=
  match jsonLoad (.rawStr (joinPath source_dir Config.serializationFname)) fs with
  | .error e => (some e, c)
  | .ok v => (none, { c with config_map := toDictVal v })

/-! ## Pipe (`pgraph.py` lines 7–63)

A concrete pipe's `run` body is arbitrary Python between store accesses; for
access-tracking purposes it is its finite trace of `FlowPool`/`Config`
operations, indexed by the `mode` string the wrapper passes through.  Pure
computation between operations cannot affect the stores and is elided. -/

/-- One store operation a concrete `run` body can perform. -/
inductive PipeOp where
  | readFlow (name : String)
  | writeFlow (name : String) (content : PyVal) (overwrite : Bool)
  | getConfig (name : String)

/-- A `Pipe` instance: the three provenance fields initialized by
`Pipe.__init__` to `[]`, `[]`, `{}`, plus the concrete subclass's `run`
body as a mode-indexed operation trace. -/
structure Pipe where
  input_flow : List String
  output_flow : List String
  config_used : List (String × PyVal)
  body : String → List PipeOp

/-- A freshly constructed pipe with the given body. -/
def Pipe.make (body : String → List PipeOp) : Pipe := ⟨[], [], [], body⟩

/-- Execute one store operation: the error (if it raised) plus the state of
both shared stores afterwards. -/
def execOp : PipeOp → FlowPool → Config → Option PErr × FlowPool × Config
  | .readFlow n, fp, c =>
    match fp.read_flow n with
    | (.ok _, fp') => (none, fp', c)
    | (.error e, fp') => (some e, fp', c)
  | .writeFlow n v ow, fp, c =>
    match fp.write_flow n v ow with
    | (none, fp') => (none, fp', c)
    | (some e, fp') => (some e, fp', c)
  | .getConfig n, fp, c =>
    match c.get_config n with
    | (.ok _, c') => (none, fp, c')
    | (.error e, c') => (some e, fp, c')

/-- Execute a body trace in order; the first raised error aborts the body
and propagates, leaving the stores as they were at the raise. -/
def execOps : List PipeOp → FlowPool → Config → Option PErr × FlowPool × Config
  | [], fp, c => (none, fp, c)
  | op :: rest, fp, c =>
    match execOp op fp c with
    | (some e, fp', c') => (some e, fp', c')
    | (none, fp', c') => execOps rest fp' c'

/-- The `wrapper` installed by `_PipeMeta.__new__` around every concrete
`run` (lines 29–44): pop both caches and discard (clear stale state), run
the body, then pop both caches again and store the harvest as
`input_flow` / `output_flow` / `config_used` on the pipe.  If the body
raises, the exception propagates and the provenance assignments never
execute; the stores keep the state they had at the raise. -/
def wrapRun (p : Pipe) (flow_pool : FlowPool) (config : Config) (mode : String) :
    Option PErr × Pipe × FlowPool × Config :=
  let (_, fp1) := flow_pool.pop_cache
  let (_, c1) := config.pop_cache
  match execOps (p.body mode) fp1 c1 with
  | (some e, fp2, c2) => (some e, p, fp2, c2)
  | (none, fp2, c2) =>
    let ((rc, wc), fp3) := fp2.pop_cache
    let (cc, c3) := c2.pop_cache
    (none, { p with input_flow := rc, output_flow := wc, config_used := cc }, fp3, c3)

/-! ## Pipeline (`pgraph.py` lines 66–81) and composition -/

/-- `Pipeline`: the ordered list of pipes. -/
structure Pipeline where
  pipes : List Pipe

/-- A possible right-hand operand of `>>`: a `Pipe` instance, a `Pipeline`
instance, or any other object. -/
inductive PyObj where
  | pipe (p : Pipe)
  | pipeline (pl : Pipeline)
  | other

/-- `Pipe.__rshift__` (lines 61–63): assert the operand is a `Pipe`
(a `Pipeline` is not a `Pipe`), then build `Pipeline(self, other)`. -/
def Pipe.rshift (self : Pipe) (rhs : PyObj) : Except PErr Pipeline :=
  match rhs with
  | .pipe p => .ok ⟨[self, p]⟩
  | _ => .error (.assertionError "The right side of >> operator needs to be a Pipe object.")

/-- `Pipeline.__rshift__` (lines 78–81): assert the operand is a `Pipe`,
append it to `self.pipes` in place and return `self` (in-place mutation is
state passing: the returned pipeline is the updated one). -/
def Pipeline.rshift (self : Pipeline) (rhs : PyObj) : Except PErr Pipeline :=
  match rhs with
  | .pipe p => .ok ⟨self.pipes ++ [p]⟩
  | _ => .error (.assertionError "The right side of >> operator needs to be a Pipe object.")

/-- The `for pipe in self.pipes` loop of `Pipeline.run`: call each pipe's
wrapped `run` with the threaded `FlowPool` and `Config` and `mode="run"`.
A raised error propagates at once; the returned pipe list carries each
pipe's state (provenance) when the loop stopped. -/
def runPipes : List Pipe → FlowPool → Config → Option PErr × List Pipe × FlowPool × Config
  | [], fp, c => (none, [], fp, c)
  | p :: rest, fp, c =>
    match wrapRun p fp c "run" with
    | (some e, p', fp', c') => (some e, p' :: rest, fp', c')
    | (none, p', fp', c') =>
      match runPipes rest fp' c' with
      | (err, rest', fp'', c'') => (err, p' :: rest', fp'', c'')

/-- `Pipeline.run(use_config, running_flow_pool=None)` (lines 72–76):
create a fresh `FlowPool` when none is supplied, run the pipes in order,
return the pool (alongside the threaded state). -/
def Pipeline.run (self : Pipeline) (use_config : Config)
    (running_flow_pool : Option FlowPool) :
    Option PErr × List Pipe × FlowPool × Config :=
  let fp := running_flow_pool.getD FlowPool.init
  runPipes self.pipes fp use_config

/-! ## Trace summaries (specification-side descriptions of a body's reads,
writes and config accesses, used to state provenance exactness) -/

/-- The flow names a trace reads, in order. -/
def readsOf (ops : List PipeOp) : List String :=
  ops.filterMap fun op =>
    match op with
    | .readFlow n => some n
    | _ => none

/-- The flow names a trace writes, in order. -/
def writesOf (ops : List PipeOp) : List String :=
  ops.filterMap fun op =>
    match op with
    | .writeFlow n _ _ => some n
    | _ => none

/-- The access cache a trace builds from accumulator `acc` against settings
map `cm`: each `getConfig` of a present name records name → value. -/
def configUsedFrom (acc : List (String × PyVal)) (ops : List PipeOp)
    (cm : List (String × PyVal)) : List (String × PyVal) :=
  match ops with
  | [] => acc
  | .getConfig n :: rest =>
    match pyFind cm n with
    | some v => configUsedFrom (pySet acc n v) rest cm
    | none => configUsedFrom acc rest cm
  | _ :: rest => configUsedFrom acc rest cm

/-- The settings map a successful body run leaves in the cleared cache. -/
def configUsedOf (ops : List PipeOp) (cm : List (String × PyVal)) :
    List (String × PyVal) :=
  configUsedFrom [] ops cm

/-! ## Concrete fixtures used to instantiate the theorems -/

/-- A concrete pipe body: read flow `"a"`, get config `"x"`, write flow
`"b" = 6` (in every mode). -/
def sampleBody : String → List PipeOp :=
  fun _ => [.readFlow "a", .getConfig "x", .writeFlow "b" (.intV 6) false]

/-- A freshly constructed pipe with `sampleBody`. -/
def samplePipe : Pipe := Pipe.make sampleBody

/-- A pool holding flow `"a" = 1` with clean caches. -/
def sampleFP : FlowPool := ⟨[("a", .intV 1)], [], []⟩

/-- A config holding setting `"x" = 5` with a clean cache. -/
def sampleConfig : Config := ⟨[("x", .intV 5)], []⟩

/-- A body that reads a flow that never exists (in every mode). -/
def failBody : String → List PipeOp := fun _ => [.readFlow "missing"]

/-- A freshly constructed pipe with `failBody`. -/
def failPipe : Pipe := Pipe.make failBody

/-! ## Helper lemmas -/

theorem pyFind_pySet {α : Type} (d : List (String × α)) (k : String) (v : α) :
    pyFind (pySet d k v) k = some v := by
  induction d with
  | nil => simp [pySet, pyFind]
  | cons kv rest ih =>
    obtain ⟨k', v'⟩ := kv
    by_cases h : k' = k
    · simp [pySet, pyFind, h]
    · simp [pySet, pyFind, h, ih]

/-- Inversion of a successful `read_flow`: the pool records the read (and
nothing else changed) and the value is `flow_map`'s entry. -/
theorem read_flow_ok (fp : FlowPool) (n : String) (v : PyVal) (fp' : FlowPool)
    (h : fp.read_flow n = (.ok v, fp')) :
    fp' = { fp with read_cache := fp.read_cache ++ [n] } ∧
    pyFind fp.flow_map n = some v := by
  unfold FlowPool.read_flow at h
  split at h
  · simp at h
  · rename_i w hw
    split at h
    · simp at h
    · split at h
      · simp at h
      · simp only [Prod.mk.injEq, Except.ok.injEq] at h
        obtain ⟨h1, h2⟩ := h
        subst h1
        exact ⟨h2.symm, hw⟩

/-- Inversion of a successful `write_flow`: the pool records the write and
stores the value. -/
theorem write_flow_ok (fp : FlowPool) (n : String) (v : PyVal) (ow : Bool)
    (fp' : FlowPool) (h : fp.write_flow n v ow = (none, fp')) :
    fp' = { fp with
      write_cache := fp.write_cache ++ [n],
      flow_map := pySet fp.flow_map n v } := by
  unfold FlowPool.write_flow at h
  split at h
  · simp at h
  · split at h
    · simp at h
    · simp only [Prod.mk.injEq] at h
      exact h.2.symm

/-- Inversion of a successful `get_config`: the cache records name → value
and the settings map is untouched. -/
theorem get_config_ok (c : Config) (n : String) (v : PyVal) (c' : Config)
    (h : c.get_config n = (.ok v, c')) :
    c' = { c with cache := pySet c.cache n v } ∧
    pyFind c.config_map n = some v := by
  unfold Config.get_config at h
  split at h
  · simp at h
  · rename_i w hw
    simp only [Prod.mk.injEq, Except.ok.injEq] at h
    obtain ⟨h1, h2⟩ := h
    subst h1
    exact ⟨h2.symm, hw⟩

/-! ## C1, C2, C10: the FlowPool access discipline -/

/-- Claim C1. `read_flow(name)` fails with `NotFoundError` when `name` is
absent from `flow_map`; otherwise with `AlreadyReadError` when `name` is in
the invocation's read cache; otherwise with `ReadAfterWriteError` when it is
in the write cache; otherwise it appends `name` to the read cache and
returns the stored value — which, after any successful write of `content`
for `name` (in this or a previous invocation), is `content`, the most
recently written value. -/
theorem read_flow_spec (fp : FlowPool) (name : String) :
    (pyFind fp.flow_map name = none →
      fp.read_flow name = (.error (.notFoundFlow name), fp)) ∧
    (∀ v, pyFind fp.flow_map name = some v →
      name ∈ fp.read_cache →
      fp.read_flow name = (.error (.alreadyRead name), fp)) ∧
    (∀ v, pyFind fp.flow_map name = some v →
      name ∉ fp.read_cache → name ∈ fp.write_cache →
      fp.read_flow name = (.error (.readAfterWrite name), fp)) ∧
    (∀ v, pyFind fp.flow_map name = some v →
      name ∉ fp.read_cache → name ∉ fp.write_cache →
      fp.read_flow name =
        (.ok v, { fp with read_cache := fp.read_cache ++ [name] })) ∧
    (∀ content ow fp', fp.write_flow name content ow = (none, fp') →
      pyFind fp'.flow_map name = some content) := by
  refine ⟨?_, ?_, ?_, ?_, ?_⟩
  · intro h
    simp [FlowPool.read_flow, h]
  · intro v hv hr
    simp [FlowPool.read_flow, hv, List.elem_iff, hr]
  · intro v hv hr hw
    simp [FlowPool.read_flow, hv, List.elem_iff, hr, hw]
  · intro v hv hr hw
    simp [FlowPool.read_flow, hv, List.elem_iff, hr, hw]
  · intro content ow fp' h
    rw [write_flow_ok fp name content ow fp' h]
    exact pyFind_pySet ..

/-- Witness for C1: on a pool holding flow `"a" = 5` with empty caches,
reading `"a"` succeeds, returns `5`, and records the read. -/
theorem read_flow_spec_witness :
    FlowPool.read_flow ⟨[("a", .intV 5)], [], []⟩ "a" =
      (.ok (.intV 5), { flow_map := [("a", PyVal.intV 5)], read_cache := [] ++ ["a"], write_cache := [] }) :=
  (read_flow_spec ⟨[("a", .intV 5)], [], []⟩ "a").2.2.2.1 (.intV 5) rfl
    (by simp) (by simp)

/-- Claim C2, counterexample. On a fresh pool, `write_flow("a", 1)` succeeds;
the second `write_flow("a", 2, overwrite=False)` in the same invocation
fails — but with the `AlreadyExistsError` of the `flow_map` membership
check, which runs first, not with `AlreadyWrittenError` as the claim
states for every overwrite combination. -/
theorem write_twice_cex :
    FlowPool.init.write_flow "a" (.intV 1) false =
      (none, { flow_map := [("a", PyVal.intV 1)], read_cache := [], write_cache := ["a"] }) ∧
    (FlowPool.write_flow
        { flow_map := [("a", PyVal.intV 1)], read_cache := [], write_cache := ["a"] }
        "a" (.intV 2) false).1 = some (.alreadyExists "a") ∧
    some (PErr.alreadyExists "a") ≠ some (PErr.alreadyWritten "a") := by
  refine ⟨rfl, rfl, by decide⟩

/-- Claim C2, amended. After a successful `write_flow` of `name`, a second
`write_flow` of the same `name` in the same invocation always fails: with
`AlreadyWrittenError` when the second call passes `overwrite=True`, but
with `AlreadyExistsError` when it passes `overwrite=False` (the name is now
in `flow_map`, and that check precedes the write-cache check). -/
theorem write_twice_amended (fp : FlowPool) (name : String) (v1 v2 : PyVal)
    (ow1 ow2 : Bool) (fp' : FlowPool)
    (h : fp.write_flow name v1 ow1 = (none, fp')) :
    (fp'.write_flow name v2 ow2).1 =
      some (if ow2 then .alreadyWritten name else .alreadyExists name) := by
  have hfp' := write_flow_ok fp name v1 ow1 fp' h
  subst hfp'
  have hmem : pyMem (pySet fp.flow_map name v1) name = true := by
    simp [pyMem, pyFind_pySet]
  cases ow2 with
  | false => simp [FlowPool.write_flow, hmem]
  | true => simp [FlowPool.write_flow, hmem, List.elem_iff]

/-- Witness for C2's amended claim: writing `"a"` twice on a fresh pool,
the second time with `overwrite=True`, fails with `AlreadyWrittenError`. -/
theorem write_twice_amended_witness :
    (FlowPool.write_flow
      { flow_map := [("a", PyVal.intV 1)], read_cache := [], write_cache := ["a"] }
      "a" (.intV 2) true).1 =
      some (if true then PErr.alreadyWritten "a" else PErr.alreadyExists "a") :=
  write_twice_amended FlowPool.init "a" (.intV 1) (.intV 2) false true
    { flow_map := [("a", PyVal.intV 1)], read_cache := [], write_cache := ["a"] } rfl

/-- Claim C10. Per-operation atomicity: whenever `read_flow` or `write_flow`
raises, the pool state at the raise is exactly the state at entry —
`flow_map`, read cache and write cache all unchanged — because every check
in both operations precedes every mutation. -/
theorem flowpool_error_atomicity (fp : FlowPool) (name : String) (v : PyVal)
    (ow : Bool) :
    (∀ e fp', fp.read_flow name = (.error e, fp') → fp' = fp) ∧
    (∀ e fp', fp.write_flow name v ow = (some e, fp') → fp' = fp) := by
  constructor
  · intro e fp' h
    unfold FlowPool.read_flow at h
    split at h
    · simp only [Prod.mk.injEq] at h
      exact h.2.symm
    · split at h
      · simp only [Prod.mk.injEq] at h
        exact h.2.symm
      · split at h
        · simp only [Prod.mk.injEq] at h
          exact h.2.symm
        · simp at h
  · intro e fp' h
    unfold FlowPool.write_flow at h
    split at h
    · simp only [Prod.mk.injEq] at h
      exact h.2.symm
    · split at h
      · simp only [Prod.mk.injEq] at h
        exact h.2.symm
      · simp at h

/-- Witness for C10: a pool that has already read `"a"` raises
`AlreadyReadError` on a second read of `"a"` and is left exactly as it was
(the hypothesis instantiates the raise at that concrete state). -/
theorem flowpool_error_atomicity_witness :
    ({ flow_map := [("a", PyVal.intV 1)], read_cache := ["a"], write_cache := [] } : FlowPool) =
      { flow_map := [("a", PyVal.intV 1)], read_cache := ["a"], write_cache := [] } :=
  (flowpool_error_atomicity
      { flow_map := [("a", PyVal.intV 1)], read_cache := ["a"], write_cache := [] }
      "a" (.intV 0) false).1
    (.alreadyRead "a")
    { flow_map := [("a", PyVal.intV 1)], read_cache := ["a"], write_cache := [] } rfl

/-! ## Accumulation of the caches over a body trace -/

/-- Inversion of a successful trace step. -/
theorem execOps_cons_ok (op : PipeOp) (rest : List PipeOp) (fp : FlowPool)
    (c : Config) (fp2 : FlowPool) (c2 : Config)
    (h : execOps (op :: rest) fp c = (none, fp2, c2)) :
    ∃ fp' c', execOp op fp c = (none, fp', c') ∧
      execOps rest fp' c' = (none, fp2, c2) := by
  unfold execOps at h
  split at h
  · simp at h
  · rename_i fp' c' hop
    exact ⟨fp', c', hop, h⟩

/-- Inversion of a successful operation: its exact effect on the stores. -/
theorem execOp_ok (op : PipeOp) (fp : FlowPool) (c : Config) (fp' : FlowPool)
    (c' : Config) (h : execOp op fp c = (none, fp', c')) :
    (∀ n, op = .readFlow n →
      fp' = { fp with read_cache := fp.read_cache ++ [n] } ∧ c' = c) ∧
    (∀ n v ow, op = .writeFlow n v ow →
      fp' = { fp with
        write_cache := fp.write_cache ++ [n],
        flow_map := pySet fp.flow_map n v } ∧ c' = c) ∧
    (∀ n, op = .getConfig n →
      fp' = fp ∧ ∃ v, pyFind c.config_map n = some v ∧
        c' = { c with cache := pySet c.cache n v }) := by
  refine ⟨?_, ?_, ?_⟩
  · rintro n rfl
    simp only [execOp] at h
    split at h
    · rename_i v fpr hr
      simp only [Prod.mk.injEq] at h
      obtain ⟨-, h2, h3⟩ := h
      obtain ⟨hfp, -⟩ := read_flow_ok fp n v fpr hr
      exact ⟨h2 ▸ hfp, h3.symm⟩
    · simp at h
  · rintro n v ow rfl
    simp only [execOp] at h
    split at h
    · rename_i fpr hw
      simp only [Prod.mk.injEq] at h
      obtain ⟨-, h2, h3⟩ := h
      exact ⟨h2 ▸ write_flow_ok fp n v ow fpr hw, h3.symm⟩
    · simp at h
  · rintro n rfl
    simp only [execOp] at h
    split at h
    · rename_i v cr hg
      simp only [Prod.mk.injEq] at h
      obtain ⟨-, h2, h3⟩ := h
      obtain ⟨hc, hv⟩ := get_config_ok c n v cr hg
      exact ⟨h2.symm, v, hv, h3 ▸ hc⟩
    · simp at h

/-- A successful body run accumulates onto the entry caches exactly the
trace's reads (in order), its writes (in order) and its config accesses
(name → value, latest access in place), and never touches `config_map`. -/
theorem execOps_ok_caches (ops : List PipeOp) (fp : FlowPool) (c : Config)
    (fp2 : FlowPool) (c2 : Config) (h : execOps ops fp c = (none, fp2, c2)) :
    fp2.read_cache = fp.read_cache ++ readsOf ops ∧
    fp2.write_cache = fp.write_cache ++ writesOf ops ∧
    c2.config_map = c.config_map ∧
    c2.cache = configUsedFrom c.cache ops c.config_map := by
  induction ops generalizing fp c with
  | nil =>
    unfold execOps at h
    simp only [Prod.mk.injEq] at h
    obtain ⟨-, h2, h3⟩ := h
    subst h2 h3
    simp [readsOf, writesOf, configUsedFrom]
  | cons op rest ih =>
    obtain ⟨fp', c', hop, hrest⟩ := execOps_cons_ok op rest fp c fp2 c2 h
    obtain ⟨hrc, hwc, hcm, hcc⟩ := ih fp' c' hrest
    obtain ⟨hread, hwrite, hget⟩ := execOp_ok op fp c fp' c' hop
    cases op with
    | readFlow n =>
      obtain ⟨hfp, hc⟩ := hread n rfl
      subst hfp hc
      refine ⟨?_, ?_, hcm, ?_⟩
      · simpa [readsOf, List.append_assoc] using hrc
      · simpa [writesOf] using hwc
      · simpa [configUsedFrom] using hcc
    | writeFlow n v ow =>
      obtain ⟨hfp, hc⟩ := hwrite n v ow rfl
      subst hfp hc
      refine ⟨?_, ?_, hcm, ?_⟩
      · simpa [readsOf] using hrc
      · simpa [writesOf, List.append_assoc] using hwc
      · simpa [configUsedFrom] using hcc
    | getConfig n =>
      obtain ⟨hfp, v, hv, hc⟩ := hget n rfl
      subst hfp hc
      refine ⟨?_, ?_, hcm, ?_⟩
      · simpa [readsOf] using hrc
      · simpa [writesOf] using hwc
      · simp only [configUsedFrom, hv]
        exact hcc

/-! ## C3: `pop_cache` (begin_invocation) semantics -/

/-- Claim C3. `pop_cache` returns exactly the read and write caches
accumulated since the previous call, in access order, resets both to empty
and touches nothing else (`flow_map` is preserved); consequently, starting
from a freshly popped pool, a successful body leaves exactly its own reads
and writes for the next `pop_cache` to harvest; and `pop_cache` is the only
emptying operation — `read_flow` and `write_flow` only ever append to the
caches (the entry caches are an initial segment of the exit caches whether
the call returns or raises). -/
theorem pop_cache_spec (fp : FlowPool) (c : Config) (ops : List PipeOp) :
    fp.pop_cache = ((fp.read_cache, fp.write_cache),
      { flow_map := fp.flow_map, read_cache := [], write_cache := [] }) ∧
    (∀ fp2 c2, execOps ops (fp.pop_cache).2 c = (none, fp2, c2) →
      fp2.pop_cache.1 = (readsOf ops, writesOf ops)) ∧
    (∀ name, ∃ t, ((fp.read_flow name).2.read_cache = fp.read_cache ++ t ∧
      (fp.read_flow name).2.write_cache = fp.write_cache)) ∧
    (∀ name v ow, ∃ t, ((fp.write_flow name v ow).2.write_cache = fp.write_cache ++ t ∧
      (fp.write_flow name v ow).2.read_cache = fp.read_cache)) := by
  refine ⟨rfl, ?_, ?_, ?_⟩
  · intro fp2 c2 h
    obtain ⟨hrc, hwc, -, -⟩ := execOps_ok_caches ops _ c fp2 c2 h
    unfold FlowPool.pop_cache
    simp only [FlowPool.pop_cache] at hrc hwc
    simp [hrc, hwc]
  · intro name
    unfold FlowPool.read_flow
    split
    · exact ⟨[], by simp⟩
    · split
      · exact ⟨[], by simp⟩
      · split
        · exact ⟨[], by simp⟩
        · exact ⟨[name], by simp⟩
  · intro name v ow
    unfold FlowPool.write_flow
    split
    · exact ⟨[], by simp⟩
    · split
      · exact ⟨[], by simp⟩
      · exact ⟨[name], by simp⟩

/-- Witness for C3: after popping a pool with stale caches, a body that
reads `"a"` and writes `"b"` leaves exactly `(["a"], ["b"])` for the next
`pop_cache` to harvest. -/
theorem pop_cache_spec_witness :
    (FlowPool.pop_cache
      { flow_map := [("a", PyVal.intV 1), ("b", PyVal.intV 2)],
        read_cache := ["a"], write_cache := ["b"] }).1 =
      (readsOf [.readFlow "a", .writeFlow "b" (.intV 2) true],
       writesOf [.readFlow "a", .writeFlow "b" (.intV 2) true]) :=
  (pop_cache_spec
      { flow_map := [("a", PyVal.intV 1)], read_cache := ["stale"], write_cache := ["old"] }
      ⟨[], []⟩
      [.readFlow "a", .writeFlow "b" (.intV 2) true]).2.1
    { flow_map := [("a", PyVal.intV 1), ("b", PyVal.intV 2)],
      read_cache := ["a"], write_cache := ["b"] }
    ⟨[], []⟩ rfl

/-! ## C4, C5: the execution wrapper -/

/-- Claim C4. After a normally-returning execution of a pipe's wrapped entry
point, `input_flow` is exactly the sequence of flow names the body read
during that call, `output_flow` exactly the names it wrote, and
`config_used` exactly the settings it accessed with their values — all
computed from this call's trace alone, whatever the pipe's previous
provenance and whatever stale cache state the stores carried (provenance is
overwritten, never accumulated). -/
theorem wrap_run_provenance (p : Pipe) (fp : FlowPool) (c : Config)
    (mode : String) (p' : Pipe) (fp' : FlowPool) (c' : Config)
    (h : wrapRun p fp c mode = (none, p', fp', c')) :
    p'.input_flow = readsOf (p.body mode) ∧
    p'.output_flow = writesOf (p.body mode) ∧
    p'.config_used = configUsedOf (p.body mode) c.config_map ∧
    p'.body = p.body := by
  simp only [wrapRun, FlowPool.pop_cache, Config.pop_cache] at h
  split at h
  · simp at h
  · rename_i fp2 c2 hexec
    obtain ⟨hrc, hwc, hcm, hcc⟩ := execOps_ok_caches (p.body mode) _ _ fp2 c2 hexec
    simp only [Prod.mk.injEq] at h
    obtain ⟨-, hp, -, -⟩ := h
    subst hp
    simp only [List.nil_append] at hrc hwc
    exact ⟨hrc, hwc, hcc, rfl⟩

/-- Witness for C4: a pipe whose body reads flow `"a"`, gets config `"x"`
and writes flow `"b"` ends the call with `input_flow = ["a"]`,
`output_flow = ["b"]` and `config_used = {"x": 5}`. -/
theorem wrap_run_provenance_witness :
    (⟨["a"], ["b"], [("x", PyVal.intV 5)], sampleBody⟩ : Pipe).input_flow =
      readsOf (samplePipe.body "run") ∧
    (⟨["a"], ["b"], [("x", PyVal.intV 5)], sampleBody⟩ : Pipe).output_flow =
      writesOf (samplePipe.body "run") ∧
    (⟨["a"], ["b"], [("x", PyVal.intV 5)], sampleBody⟩ : Pipe).config_used =
      configUsedOf (samplePipe.body "run") sampleConfig.config_map ∧
    (⟨["a"], ["b"], [("x", PyVal.intV 5)], sampleBody⟩ : Pipe).body =
      samplePipe.body :=
  wrap_run_provenance samplePipe sampleFP sampleConfig "run"
    ⟨["a"], ["b"], [("x", PyVal.intV 5)], sampleBody⟩
    ⟨[("a", .intV 1), ("b", .intV 6)], [], []⟩
    ⟨[("x", .intV 5)], []⟩ rfl

/-- Claim C5. When the wrapped body raises, the failure propagates out of the
wrapper as the body's own error, and the pipe's provenance fields keep the
values they had before the call (the harvest-and-assign steps never run);
the propagated error and store states are exactly those of the body's
partial execution. -/
theorem wrap_run_failure (p : Pipe) (fp : FlowPool) (c : Config)
    (mode : String) (e : PErr) (p' : Pipe) (fp' : FlowPool) (c' : Config)
    (h : wrapRun p fp c mode = (some e, p', fp', c')) :
    p' = p ∧
    p'.input_flow = p.input_flow ∧
    p'.output_flow = p.output_flow ∧
    p'.config_used = p.config_used ∧
    execOps (p.body mode) (fp.pop_cache).2 (c.pop_cache).2 = (some e, fp', c') := by
  simp only [wrapRun, FlowPool.pop_cache, Config.pop_cache] at h
  split at h
  · rename_i e2 fp2 c2 hexec
    simp only [Prod.mk.injEq, Option.some.injEq] at h
    obtain ⟨he, hp, hfp, hc⟩ := h
    subst he hp hfp hc
    exact ⟨rfl, rfl, rfl, rfl, by
      simp only [FlowPool.pop_cache, Config.pop_cache]
      exact hexec⟩
  · simp at h

/-- Witness for C5: a pipe whose body reads the absent flow `"missing"`
propagates the not-found error and keeps its (initial, empty) provenance. -/
theorem wrap_run_failure_witness :
    failPipe = failPipe ∧
    failPipe.input_flow = failPipe.input_flow ∧
    failPipe.output_flow = failPipe.output_flow ∧
    failPipe.config_used = failPipe.config_used ∧
    execOps (failPipe.body "run") (FlowPool.init.pop_cache).2
        (sampleConfig.pop_cache).2 =
      (some (.notFoundFlow "missing"), ⟨[], [], []⟩, ⟨[("x", .intV 5)], []⟩) :=
  wrap_run_failure failPipe FlowPool.init sampleConfig "run"
    (.notFoundFlow "missing") failPipe ⟨[], [], []⟩ ⟨[("x", .intV 5)], []⟩ rfl

/-! ## C6: composition via `>>` -/

/-- Claim C6. `P1 >> P2` on two Pipes yields a new Pipeline holding exactly
`[P1, P2]` in order; `>>` on a Pipeline appends the Pipe in place
(state-passing: the result is the pipeline with the pipe appended at the
end, nothing removed or reordered); hence `P1 >> P2 >> P3` yields the single
Pipeline `[P1, P2, P3]`; and a right-hand operand that is not a Pipe — a
Pipeline or any other object — fails the `isinstance` assertion at once, on
both forms of `>>`. -/
theorem rshift_composition (p1 p2 p3 : Pipe) :
    p1.rshift (.pipe p2) = .ok ⟨[p1, p2]⟩ ∧
    (∀ pl : Pipeline, pl.rshift (.pipe p3) = .ok ⟨pl.pipes ++ [p3]⟩) ∧
    (∀ pl12 : Pipeline, p1.rshift (.pipe p2) = .ok pl12 →
      pl12.rshift (.pipe p3) = .ok ⟨[p1, p2, p3]⟩) ∧
    (∀ q : Pipeline, p1.rshift (.pipeline q) =
      .error (.assertionError "The right side of >> operator needs to be a Pipe object.")) ∧
    p1.rshift .other =
      .error (.assertionError "The right side of >> operator needs to be a Pipe object.") ∧
    (∀ pl q : Pipeline, pl.rshift (.pipeline q) =
      .error (.assertionError "The right side of >> operator needs to be a Pipe object.")) ∧
    (∀ pl : Pipeline, pl.rshift .other =
      .error (.assertionError "The right side of >> operator needs to be a Pipe object.")) := by
  refine ⟨rfl, fun pl => rfl, ?_, fun q => rfl, rfl, fun pl q => rfl, fun pl => rfl⟩
  intro pl12 h
  simp only [Pipe.rshift, Except.ok.injEq] at h
  subst h
  rfl

/-! ## C7: `Pipeline.run` -/

/-- One step of the run loop, with the recursive call exposed through
projections. -/
theorem runPipes_cons (p : Pipe) (rest : List Pipe) (fp : FlowPool) (c : Config) :
    runPipes (p :: rest) fp c =
      (match wrapRun p fp c "run" with
        | (some e, p', fp', c') => (some e, p' :: rest, fp', c')
        | (none, p', fp', c') =>
          ((runPipes rest fp' c').1, p' :: (runPipes rest fp' c').2.1,
           (runPipes rest fp' c').2.2.1, (runPipes rest fp' c').2.2.2)) := rfl

/-- A failing prefix aborts the whole run: the pipes after it are returned
untouched (never executed) and the error and store states are the prefix's. -/
theorem runPipes_append_err (qs ps : List Pipe) (fp : FlowPool) (c : Config)
    (e : PErr) (ps' : List Pipe) (fp' : FlowPool) (c' : Config)
    (h : runPipes ps fp c = (some e, ps', fp', c')) :
    runPipes (ps ++ qs) fp c = (some e, ps' ++ qs, fp', c') := by
  induction ps generalizing fp c ps' with
  | nil =>
    unfold runPipes at h
    simp at h
  | cons p rest ih =>
    unfold runPipes at h
    split at h
    · rename_i e2 p' fp2 c2 hw
      simp only [Prod.mk.injEq, Option.some.injEq] at h
      obtain ⟨he, hps, hfp, hc⟩ := h
      subst he hps hfp hc
      simp only [List.cons_append]
      rw [runPipes_cons, hw]
    · rename_i p' fp2 c2 hw
      rcases hr : runPipes rest fp2 c2 with ⟨err, rest', fp3, c3⟩
      rw [hr] at h
      simp only [Prod.mk.injEq] at h
      obtain ⟨he, hps, hfp, hc⟩ := h
      subst he hps hfp hc
      have hq := ih fp2 c2 rest' hr
      simp only [List.cons_append]
      rw [runPipes_cons, hw]
      simp [hq]

/-- A successful prefix composes: the remainder runs from the prefix's final
stores, its updated pipes are appended after the prefix's, and its outcome
is the whole run's outcome. -/
theorem runPipes_append_ok (qs ps : List Pipe) (fp : FlowPool) (c : Config)
    (ps' : List Pipe) (fp' : FlowPool) (c' : Config)
    (h : runPipes ps fp c = (none, ps', fp', c')) :
    runPipes (ps ++ qs) fp c =
      ((runPipes qs fp' c').1, ps' ++ (runPipes qs fp' c').2.1,
       (runPipes qs fp' c').2.2.1, (runPipes qs fp' c').2.2.2) := by
  induction ps generalizing fp c ps' with
  | nil =>
    unfold runPipes at h
    simp only [Prod.mk.injEq] at h
    obtain ⟨-, hps, hfp, hc⟩ := h
    subst hps hfp hc
    simp
  | cons p rest ih =>
    unfold runPipes at h
    split at h
    · simp at h
    · rename_i p' fp2 c2 hw
      rcases hr : runPipes rest fp2 c2 with ⟨err, rest', fp3, c3⟩
      rw [hr] at h
      simp only [Prod.mk.injEq] at h
      obtain ⟨he, hps, hfp, hc⟩ := h
      subst he hps hfp hc
      have hq := ih fp2 c2 rest' hr
      simp only [List.cons_append]
      rw [runPipes_cons, hw]
      simp [hq]

/-- Claim C7. `Pipeline.run(config, flow_pool=None)`: a missing pool is
replaced by a fresh empty `FlowPool` (a supplied pool is used as given);
the pipes run strictly in sequence, each invoked through its wrapper with
`mode="run"` and the threaded (shared) FlowPool and Config; a successful
prefix hands its final stores to the rest; and a failing pipe aborts the
run at once — the error propagates, the pipes after it are returned
untouched, and the store mutations of the already-completed prefix remain
in the final FlowPool. -/
theorem pipeline_run_spec (c : Config) :
    (∀ pl : Pipeline, pl.run c none = pl.run c (some FlowPool.init)) ∧
    (∀ (pl : Pipeline) (fp : FlowPool), pl.run c (some fp) = runPipes pl.pipes fp c) ∧
    (∀ p fp, runPipes [p] fp c =
      ((wrapRun p fp c "run").1, [(wrapRun p fp c "run").2.1],
       (wrapRun p fp c "run").2.2.1, (wrapRun p fp c "run").2.2.2)) ∧
    (∀ ps qs fp ps' fp' c', runPipes ps fp c = (none, ps', fp', c') →
      runPipes (ps ++ qs) fp c =
        ((runPipes qs fp' c').1, ps' ++ (runPipes qs fp' c').2.1,
         (runPipes qs fp' c').2.2.1, (runPipes qs fp' c').2.2.2)) ∧
    (∀ ps qs fp e ps' fp' c', runPipes ps fp c = (some e, ps', fp', c') →
      runPipes (ps ++ qs) fp c = (some e, ps' ++ qs, fp', c')) := by
  refine ⟨fun pl => rfl, fun pl fp => rfl, ?_, ?_, ?_⟩
  · intro p fp
    rw [runPipes_cons]
    rcases hw : wrapRun p fp c "run" with ⟨err, p', fp2, c2⟩
    cases err <;> simp [runPipes]
  · intro ps qs fp ps' fp' c' h
    exact runPipes_append_ok qs ps fp c ps' fp' c' h
  · intro ps qs fp e ps' fp' c' h
    exact runPipes_append_err qs ps fp c e ps' fp' c' h

/-- Witness for C7's abort behaviour: a pipeline of the failing pipe then
`samplePipe`, run on an empty pool, stops at the first pipe with its
not-found error, and `samplePipe` is returned untouched. -/
theorem pipeline_run_spec_witness :
    runPipes ([failPipe] ++ [samplePipe]) FlowPool.init sampleConfig =
      (some (.notFoundFlow "missing"), [failPipe] ++ [samplePipe],
       ⟨[], [], []⟩, ⟨[("x", .intV 5)], []⟩) :=
  (pipeline_run_spec sampleConfig).2.2.2.2 [failPipe] [samplePipe]
    FlowPool.init (.notFoundFlow "missing") [failPipe]
    ⟨[], [], []⟩ ⟨[("x", .intV 5)], []⟩ rfl

/-! ## C8, C9: Config validation and serialization -/

/-- Claim C8. Construction from a mapping succeeds exactly when every value
passes the scalar check — `int`, `float` and `str` pass, list- and
dict-valued settings are rejected.  The re-validation the spec requires of
`serialize_from`, however, never happens: `serialize_from` hands the path
string (not an open file) to the JSON loader, which raises
`AttributeError` unconditionally, before reading anything and without ever
running `_check_type` — the config is returned unchanged on every input. -/
theorem config_validation_spec (m : List (String × PyVal)) :
    (Config.make (some m) = .ok ⟨m, []⟩ ↔ checkType m = true) ∧
    (checkType m = true ↔ ∀ kv ∈ m, isScalar kv.2 = true) ∧
    (∀ es, isScalar (.listV es) = false) ∧
    (∀ d, isScalar (.dictV d) = false) ∧
    (∀ n, isScalar (.intV n) = true) ∧
    (∀ x, isScalar (.floatV x) = true) ∧
    (∀ s, isScalar (.strV s) = true) ∧
    (∀ (c : Config) (dir : String) (fs : FS),
      c.serialize_from dir fs = (some .attributeError, c)) := by
  refine ⟨?_, ?_, fun es => rfl, fun d => rfl, fun n => rfl, fun x => rfl,
    fun s => rfl, fun c dir fs => rfl⟩
  · by_cases h : checkType m
    · simp [Config.make, h]
    · simp only [Bool.not_eq_true] at h
      simp [Config.make, h]
  · simp [checkType, List.all_eq_true]

/-- Claim C9. The round-trip law fails in the code: `serialize_to` does write
the settings map as a JSON object at `dir/config.json`, but
`serialize_from` on the fresh Config raises `AttributeError` (the loader is
given the raw path string and a mode flag instead of an open file object)
and leaves the fresh Config's settings unchanged — the original map is
never reproduced. -/
theorem serialize_round_trip_broken (c c2 : Config) (dir : String) (fs : FS) :
    Config.serialize_to c dir fs =
      pySet fs (joinPath dir "config.json") (.dictV c.config_map) ∧
    Config.serialize_from c2 dir (Config.serialize_to c dir fs) =
      (some .attributeError, c2) :=
  ⟨rfl, rfl⟩

end PGraph
